import Mathlib

/-!
Shallow embedding of the actox crate: the disconnect-aware bounded queue
(src/queue.rs), the topic dispatch bus (src/bus.rs), the global actor
registry (src/actor_pool.rs) and the blocking/polling event loop
(src/event_loop.rs).  State that the Rust code keeps behind locks or
atomics is passed explicitly; every operation is a pure function from the
old state to its result and the new state.
-/

namespace Actox

/-- Shared state of one bounded MP/SC queue (src/queue.rs): the buffered
elements (front of the list is the next element to be received), the
capacity handed to sync_channel, whether each end is still alive, and the
shared AtomicBool disconnected flag. -/
structure QueueState (M : Type) where
  buf : List M
  cap : Nat
  senderAlive : Bool
  receiverAlive : Bool
  disconnected : Bool
  deriving DecidableEq

/-- Error of std::sync::mpsc::SyncSender::try_send, carrying the element back. -/
inductive TrySendError (M : Type) where
  | full : M → TrySendError M
  | disconnected : M → TrySendError M
  deriving DecidableEq

/-- Behaviour of SyncSender::try_send on the channel state: disconnected
when the receiver is gone, full when the buffer holds cap elements,
otherwise the element is appended. -/
def syncTrySend {M : Type} (q : QueueState M) (m : M) :
    Except (TrySendError M) Unit × QueueState M :=
  if !q.receiverAlive then (.error (.disconnected m), q)
  else if q.cap ≤ q.buf.length then (.error (.full m), q)
  else (.ok (), { q with buf := q.buf ++ [m] })

/-- Writer::try_write (src/queue.rs lines 31-44): forwards try_send,
returns Err(element) on both failures, and stores true into the shared
flag in the Disconnected case. -/
def Writer.tryWrite {M : Type} (q : QueueState M) (m : M) :
    Except M Unit × QueueState M :=
  match syncTrySend q m with
  | (.ok (), q₂) => (.ok (), q₂)
  | (.error (.full e), q₂) => (.error e, q₂)
  | (.error (.disconnected e), q₂) => (.error e, { q₂ with disconnected := true })

/-- Writer::disconnected (src/queue.rs lines 26-28): loads the shared flag. -/
def Writer.isDisconnected {M : Type} (q : QueueState M) : Bool :=
  q.disconnected

/-- Drop for Writer (src/queue.rs lines 46-50): the sender end goes away
and the shared flag is unconditionally stored true. -/
def Writer.drop {M : Type} (q : QueueState M) : QueueState M :=
  { q with senderAlive := false, disconnected := true }

/-- Reader::disconnected (src/queue.rs lines 66-68): loads the shared flag. -/
def Reader.isDisconnected {M : Type} (q : QueueState M) : Bool :=
  q.disconnected

/-- Reader::read (src/queue.rs lines 71-80).  In this sequential model no
producer can run concurrently, so a recv on an empty buffer with a live
sender never returns: that case is the outer none.  When the call returns,
the result and the successor state are given. -/
def Reader.read {M : Type} (q : QueueState M) : Option (Option M × QueueState M) :=
  match q.buf with
  | x :: rest => some (some x, { q with buf := rest })
  | [] =>
    if q.senderAlive then none
    else some (none, { q with disconnected := true })

/-- Reader::try_read (src/queue.rs lines 82-95): non-blocking; None either
for empty (flag untouched) or for disconnected (flag stored true). -/
def Reader.tryRead {M : Type} (q : QueueState M) : Option M × QueueState M :=
  match q.buf with
  | x :: rest => (some x, { q with buf := rest })
  | [] =>
    if q.senderAlive then (none, q)
    else (none, { q with disconnected := true })

/-- Reader::read_timeout (src/queue.rs lines 97-110): in the sequential
model an empty buffer with a live sender times out. -/
def Reader.readTimeout {M : Type} (q : QueueState M) : Option M × QueueState M :=
  match q.buf with
  | x :: rest => (some x, { q with buf := rest })
  | [] =>
    if q.senderAlive then (none, q)
    else (none, { q with disconnected := true })

/-- Drop for Reader (src/queue.rs lines 112-116): the receiver end goes
away and the shared flag is unconditionally stored true. -/
def Reader.drop {M : Type} (q : QueueState M) : QueueState M :=
  { q with receiverAlive := false, disconnected := true }

/-- Lookup in an association list, mirroring HashMap::get on a map whose
keys are pairwise distinct. -/
def assocLookup {κ α : Type} [DecidableEq κ] : List (κ × α) → κ → Option α
  | [], _ => none
  | (k, v) :: rest, key => if k = key then some v else assocLookup rest key

/-- Update the value stored under a key (HashMap::get_mut followed by a
mutation); a missing key leaves the list unchanged. -/
def assocUpdate {κ α : Type} [DecidableEq κ] (f : α → α) :
    List (κ × α) → κ → List (κ × α)
  | [], _ => []
  | (k, v) :: rest, key =>
    if k = key then (k, f v) :: rest else (k, v) :: assocUpdate f rest key

/-- Remove the entry stored under a key (HashMap::remove). -/
def assocErase {κ α : Type} [DecidableEq κ] : List (κ × α) → κ → List (κ × α)
  | [], _ => []
  | (k, v) :: rest, key =>
    if k = key then rest else (k, v) :: assocErase rest key

/-- State of a Dispatch bus (src/bus.rs): the topic map sends each topic
to the UniqueIDs subscribed under it, and queues gives every subscriber
UID the state of its queue — shared between the Writer handle the bus
holds and the Reader the subscriber holds. -/
structure Dispatch (T M : Type) where
  topics : List (T × List Nat)
  queues : Nat → QueueState M

/-- The for-loop body of Dispatch::publish: a best-effort try_write of a
clone of the message into every subscriber of the topic, result ignored. -/
def fanOut {M : Type} (m : M) (uids : List Nat) (qs : Nat → QueueState M) :
    Nat → QueueState M :=
  uids.foldl (fun f uid => Function.update f uid (Writer.tryWrite (f uid) m).2) qs

/-- Dispatch::publish (src/bus.rs lines 45-60): if the topic has a
subscriber map, try_write a clone of the message to each subscriber,
ignoring failures; otherwise do nothing. -/
def Dispatch.publish {T M : Type} [DecidableEq T]
    (st : Dispatch T M) (t : T) (m : M) : Dispatch T M :=
  match assocLookup st.topics t with
  | none => st
  | some uids => { st with queues := fanOut m uids st.queues }

/-- Dispatch::subscribe (src/bus.rs lines 63-77): insert an empty
subscriber map if the topic is new, then insert the subscriber's writer
under its UID (re-inserting an existing UID leaves the set of UIDs as it
was). -/
def Dispatch.subscribe {T M : Type} [DecidableEq T]
    (st : Dispatch T M) (t : T) (uid : Nat) : Dispatch T M :=
  let topics :=
    if (assocLookup st.topics t).isSome then st.topics else st.topics ++ [(t, [])]
  { st with topics := assocUpdate (fun us => if uid ∈ us then us else us ++ [uid]) topics t }

/-- Dispatch::unsubscribe (src/bus.rs lines 80-90): remove the
subscriber's UID from the topic's map when the topic exists. -/
def Dispatch.unsubscribe {T M : Type} [DecidableEq T]
    (st : Dispatch T M) (t : T) (uid : Nat) : Dispatch T M :=
  { st with topics := assocUpdate (fun us => us.erase uid) st.topics t }

/-- Dispatch::shrink_to_fit (src/bus.rs lines 96-114): retain in every
topic only subscriptions whose writer is not disconnected, then retain
only non-empty topics.  The capacity release is not observable here. -/
def Dispatch.shrinkToFit {T M : Type} [DecidableEq T]
    (st : Dispatch T M) : Dispatch T M :=
  let topics₁ := st.topics.map
    (fun kv => (kv.1, kv.2.filter (fun u => !(st.queues u).disconnected)))
  { st with topics := topics₁.filter (fun kv => !kv.2.isEmpty) }

/-- The actor related error kinds of the crate (src/lib.rs). -/
inductive ActorError where
  | warning
  | notFound
  | existsAlready
  | endpointNotConnected
  | typeMismatch
  deriving DecidableEq

/-- A type-erased registry entry (src/actor_pool.rs): the Box<Any> stores
a Sender whose element type is recorded as a tag (the TypeId); connected
tells whether the receiving end still exists, and buf holds the messages
sent through the unbounded channel (payloads abstracted as Nat). -/
structure Endpoint where
  tag : Nat
  connected : Bool
  buf : List Nat
  deriving DecidableEq

/-- The global actor pool: a map from name to a type-erased endpoint. -/
abbrev Pool := List (String × Endpoint)

/-- ActorPool::register (src/actor_pool.rs lines 19-29): insert under the
name unless it is taken, in which case throw ExistsAlready and leave the
pool untouched. -/
def ActorPool.register (pool : Pool) (ep : Endpoint) (name : String) :
    Except ActorError Pool :=
  if (assocLookup pool name).isSome then .error .existsAlready
  else .ok (pool ++ [(name, ep)])

/-- ActorPool::unregister (src/actor_pool.rs lines 36-44): remove the
entry, throwing NotFound when there is none. -/
def ActorPool.unregister (pool : Pool) (name : String) : Except ActorError Pool :=
  match assocLookup pool name with
  | none => .error .notFound
  | some _ => .ok (assocErase pool name)

/-- ActorPool::send (src/actor_pool.rs lines 60-71): look the name up
(NotFound), downcast to the message's static type (TypeMismatch), then
send on the channel (EndpointNotConnected when the receiver is gone);
otherwise the message is enqueued. -/
def ActorPool.send (pool : Pool) (name : String) (tag : Nat) (msg : Nat) :
    Except ActorError Pool :=
  match assocLookup pool name with
  | none => .error .notFound
  | some ep =>
    if ep.tag ≠ tag then .error .typeMismatch
    else if !ep.connected then .error .endpointNotConnected
    else .ok (assocUpdate (fun e => { e with buf := e.buf ++ [msg] }) pool name)

/-- An event as returned by an event source (src/event_loop.rs): a payload
tagged with the name of the source that produced it. -/
structure Event (E : Type) where
  payload : E
  source : String
  deriving DecidableEq

/-- A Result of Event of E or Event of R: ok is a normal event, error is a
fatal error event. -/
abbrev EvResult (E R : Type) := Except (Event R) (Event E)

/-- One item travelling through the aggregation channel:
Option of Result of Event of E or Event of R. -/
abbrev AggItem (E R : Type) := Option (EvResult E R)

/-- EventLoop::start_sync's consumer loop (src/event_loop.rs lines
105-109) run over the finite sequence of items the aggregation channel
will ever carry; after the list is exhausted every producer has hung up
and recv fails, so the handler is returned.  The handler is a state
machine step: it consumes one event and yields the updated handler or a
fatal error. -/
def startSync {H E R : Type} (step : H → EvResult E R → Except R H) :
    H → List (AggItem E R) → Except R H
  | h, [] => .ok h
  | h, none :: rest => startSync step h rest
  | h, some ev :: rest =>
    match step h ev with
    | .error r => .error r
    | .ok h₂ => startSync step h₂ rest

/-- EventLoop::aggregate_blocking_source_async's worker body
(src/event_loop.rs lines 148-160) applied to the sequence of results the
source's wait calls produce: every item is forwarded, and the worker stops
right after forwarding the first fatal error. -/
def aggregateBlocking {E R : Type} : List (AggItem E R) → List (AggItem E R)
  | [] => []
  | some (.error r) :: _ => [some (.error r)]
  | item :: rest => item :: aggregateBlocking rest

/-- A polling event source in the shared polling worker: an identity (each
boxed source is one distinct object) and the sequence of results its
successive poll calls produce. -/
structure PollSrc (E R : Type) where
  id : Nat
  script : List (AggItem E R)

/-- One poll call on a source: the next scripted result; an exhausted
script keeps reporting that nothing happened. -/
def pollOnce {E R : Type} (s : PollSrc E R) : AggItem E R × PollSrc E R :=
  match s.script with
  | [] => (none, s)
  | ev :: rest => (ev, { s with script := rest })

/-- The result the next poll of a source forwards to the aggregator. -/
def pollEv {E R : Type} (s : PollSrc E R) : AggItem E R :=
  (pollOnce s).1

/-- What one sweep iteration does with a source after polling it: a source
whose poll reported a fatal error is dropped, any other source is kept
(advanced past the consumed script entry). -/
def stepKeep {E R : Type} (s : PollSrc E R) : Option (PollSrc E R) :=
  match pollOnce s with
  | (some (.error _), _) => none
  | (_, s₂) => some s₂

/-- The for-loop of one sweep in aggregate_polling_sources_async
(src/event_loop.rs lines 168-182): n times, pop the front source, poll it,
push it back unless it reported a fatal error, and forward the poll result
to the aggregator. -/
def sweepAux {E R : Type} :
    Nat → List (PollSrc E R) → List (PollSrc E R) × List (AggItem E R)
  | 0, ss => (ss, [])
  | _ + 1, [] => ([], [])
  | n + 1, s :: rest =>
    let poll := pollOnce s
    let next :=
      match poll.1 with
      | some (.error _) => rest
      | _ => rest ++ [poll.2]
    let result := sweepAux n next
    (result.1, poll.1 :: result.2)

/-- One full sweep of the shared polling worker: every source currently in
the deque is polled exactly once. -/
def sweep {E R : Type} (ss : List (PollSrc E R)) :
    List (PollSrc E R) × List (AggItem E R) :=
  sweepAux ss.length ss

/-- The deque the polling worker holds when the next sweep begins. -/
def sweepStep {E R : Type} (ss : List (PollSrc E R)) : List (PollSrc E R) :=
  (sweep ss).1

/-- The name under which start_actor's input receiver appears as an event
source (src/event_loop.rs line 134). -/
def actorInputSourceName (name : String) : String :=
  "\"" ++ name ++ "\"::ActorInput"

/-- Everything observable about one call of EventLoop::start_actor: the
returned result, the registry afterwards, the loop's polling sources
afterwards, and whether the background worker thread was spawned. -/
structure StartActorOutcome where
  result : Except ActorError Unit
  pool : Pool
  polling : List String
  spawned : Bool

/-- EventLoop::start_actor (src/event_loop.rs lines 124-144): create a
fresh channel, register its sender — rethrowing the failure before
anything else happens — then add the receiver as one more polling source
and spawn the background worker. -/
def EventLoop.startActor (pool : Pool) (polling : List String)
    (name : String) (tag : Nat) : StartActorOutcome :=
  match ActorPool.register pool { tag := tag, connected := true, buf := [] } name with
  | .error e => { result := .error e, pool := pool, polling := polling, spawned := false }
  | .ok pool₂ =>
    { result := .ok ()
      pool := pool₂
      polling := polling ++ [actorInputSourceName name]
      spawned := true }

/-- The tail of start_actor's spawned closure (src/event_loop.rs lines
139-142): once start_sync has returned — for whatever reason — the name is
unregistered, the result of unregister being ignored. -/
def actorWorkerFinish (pool : Pool) (name : String) : Pool :=
  match ActorPool.unregister pool name with
  | .ok pool₂ => pool₂
  | .error _ => pool

/-- A concrete queue whose buffer is saturated while both ends are alive. -/
def qFull : QueueState Nat :=
  { buf := [0], cap := 1, senderAlive := true, receiverAlive := true, disconnected := false }

/-- A concrete queue whose reader has been released. -/
def qGone : QueueState Nat :=
  { buf := [], cap := 1, senderAlive := true, receiverAlive := false, disconnected := false }

/-- A concrete bus: topic 1 has the single subscriber 7, and every
subscriber's queue is empty with capacity 2 and both ends alive. -/
def busEx : Dispatch Nat Nat :=
  { topics := [(1, [7])]
    queues := fun _ =>
      { buf := [], cap := 2, senderAlive := true, receiverAlive := true, disconnected := false } }

/-- A concrete registry holding one connected endpoint of tag 0 under "X". -/
def poolEx : Pool :=
  [⟨"X", { tag := 0, connected := true, buf := [] }⟩]

/-- A concrete handler step: sums the payloads of ok events and reports
the payload of an error event as fatal. -/
def sumStep : Nat → EvResult Nat Nat → Except Nat Nat :=
  fun n ev =>
    match ev with
    | .ok e => .ok (n + e.payload)
    | .error e => .error e.payload

/-- A concrete polling deque: source 0 reports a fatal error on its first
poll, source 1 twice reports that nothing happened. -/
def ssEx : List (PollSrc Nat Nat) :=
  [{ id := 0, script := [some (.error { payload := 9, source := "a" })] },
   { id := 1, script := [none, none] }]

/-- A concrete bus for compaction: topic 1 carries the live subscriber 7
and the disconnected subscriber 8. -/
def busShrinkEx : Dispatch Nat Nat :=
  { topics := [(1, [7, 8])]
    queues := fun u =>
      { buf := [], cap := 2, senderAlive := true, receiverAlive := true,
        disconnected := u == 8 } }

/-- try_write when the reader end has been released: the element comes
back and the shared flag is stored true. -/
theorem tryWrite_of_receiverDead {M : Type} (q : QueueState M) (m : M)
    (h : q.receiverAlive = false) :
    Writer.tryWrite q m = (.error m, { q with disconnected := true }) := by
  simp [Writer.tryWrite, syncTrySend, h]

/-- try_write when the buffer is saturated while the reader is alive: the
element comes back and the state is untouched. -/
theorem tryWrite_of_full {M : Type} (q : QueueState M) (m : M)
    (hR : q.receiverAlive = true) (hF : q.cap ≤ q.buf.length) :
    Writer.tryWrite q m = (.error m, q) := by
  simp [Writer.tryWrite, syncTrySend, hR, hF]

/-- try_write when the reader is alive and the buffer has room: the
element is appended to the buffer. -/
theorem tryWrite_of_ok {M : Type} (q : QueueState M) (m : M)
    (hR : q.receiverAlive = true) (hO : q.buf.length < q.cap) :
    Writer.tryWrite q m = (.ok (), { q with buf := q.buf ++ [m] }) := by
  have hF : ¬ q.cap ≤ q.buf.length := Nat.not_le.mpr hO
  simp [Writer.tryWrite, syncTrySend, hR, hF]

/-- The buffer after a try_write: the message is appended exactly when the
reader is alive and the buffer is below capacity, otherwise the buffer is
unchanged. -/
theorem tryWrite_buf {M : Type} (q : QueueState M) (m : M) :
    ((Writer.tryWrite q m).2).buf =
      (if q.receiverAlive = true ∧ q.buf.length < q.cap
       then q.buf ++ [m] else q.buf) := by
  by_cases hR : q.receiverAlive = true
  · by_cases hO : q.buf.length < q.cap
    · rw [tryWrite_of_ok q m hR hO]
      simp [hR, hO]
    · rw [tryWrite_of_full q m hR (Nat.not_lt.mp hO)]
      simp [hO]
  · rw [tryWrite_of_receiverDead q m (by simpa using hR)]
    simp [hR]

/-- C4 (counterexample): a full queue with a live peer and a queue whose
reader was released make try_write fail with the very same result, the
bare Err carrying the element back — the two underlying try_send causes
are distinct variants, but the value try_write returns to its caller is
not. -/
theorem tryWrite_no_distinct_variant :
    (Writer.tryWrite qFull 5).1 = .error 5 ∧
    (Writer.tryWrite qGone 5).1 = .error 5 ∧
    (Writer.tryWrite qFull 5).1 = (Writer.tryWrite qGone 5).1 ∧
    (syncTrySend qFull 5).1 = .error (.full 5) ∧
    (syncTrySend qGone 5).1 = .error (.disconnected 5) :=
  ⟨rfl, rfl, rfl, rfl, rfl⟩

/-- C4 (amended): try_write either succeeds by appending the element, or
fails returning ownership of the element as Err; the full cause (buffer
saturated, peer alive) leaves the state untouched while the disconnected
cause (peer gone) additionally stores true into the shared flag — the two
failures are told apart by that side effect, not by the returned value. -/
theorem tryWrite_failure_modes {M : Type} (q : QueueState M) (m : M) :
    (q.receiverAlive = false →
      Writer.tryWrite q m = (.error m, { q with disconnected := true })) ∧
    (q.receiverAlive = true → q.cap ≤ q.buf.length →
      Writer.tryWrite q m = (.error m, q)) ∧
    (q.receiverAlive = true → q.buf.length < q.cap →
      Writer.tryWrite q m = (.ok (), { q with buf := q.buf ++ [m] })) :=
  ⟨tryWrite_of_receiverDead q m, tryWrite_of_full q m, tryWrite_of_ok q m⟩

/-- Witness for C4's amended theorem at a concrete queue whose reader was
released. -/
theorem tryWrite_failure_modes_witness :
    Writer.tryWrite qGone 5 = (.error 5, { qGone with disconnected := true }) :=
  (tryWrite_failure_modes qGone 5).1 rfl

/-- C6: the shared disconnected flag is monotone and destructor-driven —
dropping either end stores true unconditionally, each operation's output
flag is the old flag or-ed with whether the operation observed the peer
gone (so it is never reset), and disconnected() on either end reports the
current value. -/
theorem disconnected_flag_protocol {M : Type} (q : QueueState M) (m : M) :
    (Writer.drop q).disconnected = true ∧
    (Reader.drop q).disconnected = true ∧
    (Writer.tryWrite q m).2.disconnected = (q.disconnected || !q.receiverAlive) ∧
    (Reader.tryRead q).2.disconnected =
      (q.disconnected || (q.buf.isEmpty && !q.senderAlive)) ∧
    (Reader.readTimeout q).2.disconnected =
      (q.disconnected || (q.buf.isEmpty && !q.senderAlive)) ∧
    (∀ p, Reader.read q = some p →
      p.2.disconnected = (q.disconnected || q.buf.isEmpty)) ∧
    Writer.isDisconnected q = q.disconnected ∧
    Reader.isDisconnected q = q.disconnected := by
  obtain ⟨buf, cap, sA, rA, d⟩ := q
  refine ⟨rfl, rfl, ?_, ?_, ?_, ?_, rfl, rfl⟩
  · cases rA <;> by_cases hF : cap ≤ buf.length <;>
      simp [Writer.tryWrite, syncTrySend, hF]
  · cases buf <;> cases sA <;> simp [Reader.tryRead]
  · cases buf <;> cases sA <;> simp [Reader.readTimeout]
  · intro p hp
    cases buf with
    | nil =>
      cases sA with
      | false =>
        simp only [Reader.read] at hp
        simp at hp
        simp [← hp]
      | true => simp [Reader.read] at hp
    | cons x rest =>
      simp only [Reader.read] at hp
      simp at hp
      simp [← hp]

/-- Witness for C6 at a concrete read that observes the writer gone. -/
theorem disconnected_flag_protocol_witness :
    ({ buf := [], cap := 1, senderAlive := false, receiverAlive := true,
       disconnected := true } : QueueState Nat).disconnected
      = (false || (([] : List Nat)).isEmpty) :=
  (disconnected_flag_protocol
      { buf := [], cap := 1, senderAlive := false, receiverAlive := true,
        disconnected := false } 0).2.2.2.2.2.1
    (none, { buf := [], cap := 1, senderAlive := false, receiverAlive := true,
             disconnected := true }) rfl

/-- Updating the value under a key and then looking that key up yields the
updated value. -/
theorem assocLookup_update_self {κ α : Type} [DecidableEq κ]
    (f : α → α) (l : List (κ × α)) (key : κ) :
    assocLookup (assocUpdate f l key) key = (assocLookup l key).map f := by
  induction l with
  | nil => simp [assocLookup, assocUpdate]
  | cons kv rest ih =>
    obtain ⟨k, v⟩ := kv
    by_cases h : k = key
    · simp [assocLookup, assocUpdate, h]
    · simp [assocLookup, assocUpdate, h, ih]

/-- The pointwise effect of publish's fan-out loop: a queue is written
through try_write exactly when its UID is among the topic's subscribers,
and every other queue is untouched. -/
theorem fanOut_apply {M : Type} (m : M) :
    ∀ (uids : List Nat) (qs : Nat → QueueState M), uids.Nodup → ∀ u,
      fanOut m uids qs u =
        (if u ∈ uids then (Writer.tryWrite (qs u) m).2 else qs u) := by
  intro uids
  induction uids with
  | nil => intro qs _ u; simp [fanOut]
  | cons uid rest ih =>
    intro qs hnd u
    have huid : uid ∉ rest := (List.nodup_cons.mp hnd).1
    have hnd₂ : rest.Nodup := (List.nodup_cons.mp hnd).2
    have hstep : fanOut m (uid :: rest) qs
        = fanOut m rest (Function.update qs uid (Writer.tryWrite (qs uid) m).2) := rfl
    rw [hstep, ih _ hnd₂ u]
    by_cases hu : u ∈ rest
    · have hne : u ≠ uid := fun he => huid (he ▸ hu)
      simp [hu, Function.update_noteq hne]
    · by_cases he : u = uid
      · subst he
        simp [hu, Function.update_same]
      · simp [hu, he, Function.update_noteq he]

/-- C1: for a subscriber currently registered under a topic, publish
performs a non-blocking try_write of a clone of the message into that
subscriber's queue; the message lands in the buffer exactly when the
reader is alive and the buffer is below capacity, and otherwise the buffer
is left as it was. -/
theorem publish_delivers {T M : Type} [DecidableEq T]
    (st : Dispatch T M) (t : T) (m : M) (uids : List Nat) (uid : Nat)
    (hl : assocLookup st.topics t = some uids) (hnd : uids.Nodup) (hmem : uid ∈ uids) :
    (st.publish t m).queues uid = (Writer.tryWrite (st.queues uid) m).2 ∧
    ((st.publish t m).queues uid).buf =
      (if (st.queues uid).receiverAlive = true
          ∧ (st.queues uid).buf.length < (st.queues uid).cap
       then (st.queues uid).buf ++ [m] else (st.queues uid).buf) := by
  have h₁ : (st.publish t m).queues uid = (Writer.tryWrite (st.queues uid) m).2 := by
    simp only [Dispatch.publish, hl]
    rw [fanOut_apply m uids st.queues hnd uid]
    simp [hmem]
  exact ⟨h₁, by rw [h₁]; exact tryWrite_buf (st.queues uid) m⟩

/-- Witness for C1 on a concrete bus with topic 1 and subscriber 7. -/
theorem publish_delivers_witness :
    (busEx.publish 1 5).queues 7 = (Writer.tryWrite (busEx.queues 7) 5).2 ∧
    ((busEx.publish 1 5).queues 7).buf =
      (if (busEx.queues 7).receiverAlive = true
          ∧ (busEx.queues 7).buf.length < (busEx.queues 7).cap
       then (busEx.queues 7).buf ++ [5] else (busEx.queues 7).buf) :=
  publish_delivers busEx 1 5 [7] 7 rfl (by simp) (by simp)

/-- C9: after unsubscribe the subscriber's UID is gone from the topic's
map, a publish on that topic right afterwards leaves the subscriber's
queue exactly as it was, and publish never alters the topic map itself —
so the subscriber observes nothing further until it re-subscribes. -/
theorem unsubscribe_stops_delivery {T M : Type} [DecidableEq T]
    (st : Dispatch T M) (t : T) (uid : Nat) (m : M)
    (hinv : ∀ us, assocLookup st.topics t = some us → us.Nodup) :
    (∀ us₂, assocLookup (st.unsubscribe t uid).topics t = some us₂ →
        uid ∉ us₂ ∧ us₂.Nodup) ∧
    ((st.unsubscribe t uid).publish t m).queues uid = st.queues uid ∧
    (∀ (t₂ : T) (m₂ : M), (st.publish t₂ m₂).topics = st.topics) := by
  have hup : assocLookup (st.unsubscribe t uid).topics t
      = (assocLookup st.topics t).map (fun us => us.erase uid) :=
    assocLookup_update_self _ st.topics t
  refine ⟨?_, ?_, ?_⟩
  · intro us₂ h
    rw [hup] at h
    cases hl : assocLookup st.topics t with
    | none => rw [hl] at h; simp at h
    | some us =>
      rw [hl] at h
      simp only [Option.map_some'] at h
      have hus : us₂ = us.erase uid := by
        injection h with h
        exact h.symm
      subst hus
      exact ⟨(hinv us hl).not_mem_erase, (hinv us hl).erase uid⟩
  · cases hl : assocLookup st.topics t with
    | none =>
      have h₂ : assocLookup (st.unsubscribe t uid).topics t = none := by
        rw [hup, hl]; rfl
      simp only [Dispatch.publish, h₂]
      rfl
    | some us =>
      have h₂ : assocLookup (st.unsubscribe t uid).topics t = some (us.erase uid) := by
        rw [hup, hl]; rfl
      simp only [Dispatch.publish, h₂]
      have hq : (st.unsubscribe t uid).queues = st.queues := rfl
      rw [hq, fanOut_apply m (us.erase uid) st.queues ((hinv us hl).erase uid) uid]
      simp [(hinv us hl).not_mem_erase]
  · intro t₂ m₂
    cases hl : assocLookup st.topics t₂ with
    | none => simp only [Dispatch.publish, hl]
    | some us => simp only [Dispatch.publish, hl]

/-- Witness for C9 on the concrete bus: after unsubscribing subscriber 7
from topic 1, publishing on topic 1 leaves 7's queue untouched. -/
theorem unsubscribe_stops_delivery_witness :
    ((busEx.unsubscribe 1 7).publish 1 5).queues 7 = busEx.queues 7 :=
  (unsubscribe_stops_delivery busEx 1 7 5
    (by
      intro us h
      rw [show assocLookup busEx.topics 1 = some [7] from rfl] at h
      injection h with h
      rw [← h]
      simp)).2.1

/-- Mapping a function over the values of an association list commutes
with lookup. -/
theorem assocLookup_map {κ α β : Type} [DecidableEq κ]
    (g : α → β) (l : List (κ × α)) (key : κ) :
    assocLookup (l.map (fun kv => (kv.1, g kv.2))) key
      = (assocLookup l key).map g := by
  induction l with
  | nil => simp [assocLookup]
  | cons kv rest ih =>
    obtain ⟨k, v⟩ := kv
    by_cases h : k = key <;> simp [assocLookup, h, ih]

/-- A key that occurs under no entry looks up to nothing. -/
theorem assocLookup_eq_none {κ α : Type} [DecidableEq κ]
    (l : List (κ × α)) (key : κ) (h : key ∉ l.map Prod.fst) :
    assocLookup l key = none := by
  induction l with
  | nil => rfl
  | cons kv rest ih =>
    obtain ⟨k, v⟩ := kv
    simp only [List.map_cons, List.mem_cons] at h
    push_neg at h
    simp [assocLookup, Ne.symm h.1, ih h.2]

/-- The combined lookup behaviour of shrink_to_fit's two retain passes on
a topic map with pairwise distinct keys: looking a topic up afterwards
yields its live subscriptions when there are any, and nothing when the
filtered list came out empty. -/
theorem assocLookup_shrink {κ : Type} [DecidableEq κ] (live : Nat → Bool)
    (l : List (κ × List Nat)) (key : κ) (hk : (l.map Prod.fst).Nodup) :
    assocLookup
        ((l.map (fun kv => (kv.1, kv.2.filter live))).filter
          (fun kv => !kv.2.isEmpty)) key
      = ((assocLookup l key).map (fun vs => vs.filter live)).filter
          (fun vs => !vs.isEmpty) := by
  induction l with
  | nil => rfl
  | cons kv rest ih =>
    obtain ⟨k, vs⟩ := kv
    simp only [List.map_cons, List.nodup_cons] at hk
    by_cases h : k = key
    · subst h
      by_cases hE : (vs.filter live).isEmpty
      · have hnone : assocLookup
            ((rest.map (fun kv => (kv.1, kv.2.filter live))).filter
              (fun kv => !kv.2.isEmpty)) k = none := by
          refine assocLookup_eq_none _ _ (fun hmem => hk.1 ?_)
          rw [List.mem_map] at hmem
          obtain ⟨kv₂, hkv₂, hfst⟩ := hmem
          have hkv₃ := List.mem_of_mem_filter hkv₂
          rw [List.mem_map] at hkv₃
          obtain ⟨kv₄, hkv₄, heq⟩ := hkv₃
          have : kv₄.1 = k := by rw [← hfst, ← heq]
          exact this ▸ List.mem_map_of_mem Prod.fst hkv₄
        simp [List.filter_cons, hE, assocLookup, hnone, Option.filter]
      · simp [List.filter_cons, hE, assocLookup, Option.filter]
    · by_cases hE : (vs.filter live).isEmpty <;>
        simp [List.filter_cons, hE, assocLookup, h, ih hk.2]

/-- A key absent from an association list looks up the entry just
appended for it. -/
theorem assocLookup_append {κ α : Type} [DecidableEq κ]
    (l : List (κ × α)) (key : κ) (v : α) (h : assocLookup l key = none) :
    assocLookup (l ++ [(key, v)]) key = some v := by
  induction l with
  | nil => simp [assocLookup]
  | cons kv rest ih =>
    obtain ⟨k, w⟩ := kv
    by_cases he : k = key
    · simp [assocLookup, he] at h
    · simp only [assocLookup, he, if_false, List.cons_append] at h ⊢
      simp [assocLookup, he, ih h]

/-- Erasing a key that was just appended to a list not containing it
restores the original list. -/
theorem assocErase_append {κ α : Type} [DecidableEq κ]
    (l : List (κ × α)) (key : κ) (v : α) (h : assocLookup l key = none) :
    assocErase (l ++ [(key, v)]) key = l := by
  induction l with
  | nil => simp [assocErase]
  | cons kv rest ih =>
    obtain ⟨k, w⟩ := kv
    by_cases he : k = key
    · simp [assocLookup, he] at h
    · simp only [assocLookup, he, if_false] at h
      simp [assocErase, he, ih h]

/-- C5: shrink_to_fit removes exactly the subscriptions whose writer
reports disconnected and exactly the topics left without any
subscription: a topic whose live-subscription list is empty disappears, a
topic with at least one live subscription survives carrying precisely its
live subscriptions, and a subscription survives exactly when it was
present and its writer is connected. -/
theorem shrinkToFit_spec {T M : Type} [DecidableEq T]
    (st : Dispatch T M) (hk : (st.topics.map Prod.fst).Nodup)
    (t : T) (us : List Nat) (hl : assocLookup st.topics t = some us) :
    (us.filter (fun u => !(st.queues u).disconnected) = [] →
        assocLookup (st.shrinkToFit).topics t = none) ∧
    (us.filter (fun u => !(st.queues u).disconnected) ≠ [] →
        assocLookup (st.shrinkToFit).topics t
          = some (us.filter (fun u => !(st.queues u).disconnected))) ∧
    (∀ u, u ∈ us.filter (fun u => !(st.queues u).disconnected)
        ↔ (u ∈ us ∧ (st.queues u).disconnected = false)) := by
  have hmain : assocLookup (st.shrinkToFit).topics t
      = (some (us.filter (fun u => !(st.queues u).disconnected))).filter
          (fun vs => !vs.isEmpty) := by
    have h₁ := assocLookup_shrink (fun u => !(st.queues u).disconnected) st.topics t hk
    rw [hl] at h₁
    exact h₁
  refine ⟨?_, ?_, ?_⟩
  · intro hempty
    rw [hmain, hempty]
    rfl
  · intro hne
    rw [hmain]
    have : (us.filter (fun u => !(st.queues u).disconnected)).isEmpty = false := by
      simpa [List.isEmpty_iff] using hne
    simp [Option.filter, this]
  · intro u
    simp [List.mem_filter]

/-- Witness for C5: a bus with one live and one dead subscription under
topic 1 keeps exactly the live one after shrink_to_fit. -/
theorem shrinkToFit_spec_witness :
    assocLookup (busShrinkEx.shrinkToFit).topics 1 = some [7] :=
  (shrinkToFit_spec busShrinkEx (by simp [busShrinkEx]) 1 [7, 8] rfl).2.1
    (by simp [busShrinkEx])

/-- C2: registry send fails NotFound when the name is unregistered (the
stored type being irrelevant), otherwise TypeMismatch when the stored
endpoint's element type differs from the message's static type (even for
a disconnected endpoint), otherwise EndpointNotConnected when the
receiving peer is gone, and otherwise enqueues the message — the checks
happen in exactly that order. -/
theorem send_error_precedence (pool : Pool) (name : String) (tag msg : Nat) :
    (assocLookup pool name = none →
        ActorPool.send pool name tag msg = .error .notFound) ∧
    (∀ ep, assocLookup pool name = some ep → ep.tag ≠ tag →
        ActorPool.send pool name tag msg = .error .typeMismatch) ∧
    (∀ ep, assocLookup pool name = some ep → ep.tag = tag → ep.connected = false →
        ActorPool.send pool name tag msg = .error .endpointNotConnected) ∧
    (∀ ep, assocLookup pool name = some ep → ep.tag = tag → ep.connected = true →
        ActorPool.send pool name tag msg
          = .ok (assocUpdate (fun e => { e with buf := e.buf ++ [msg] }) pool name) ∧
        assocLookup (assocUpdate (fun e => { e with buf := e.buf ++ [msg] }) pool name) name
          = some { ep with buf := ep.buf ++ [msg] }) := by
  refine ⟨?_, ?_, ?_, ?_⟩
  · intro h
    simp [ActorPool.send, h]
  · intro ep h htag
    simp [ActorPool.send, h, htag]
  · intro ep h htag hcon
    simp [ActorPool.send, h, htag, hcon]
  · intro ep h htag hcon
    refine ⟨by simp [ActorPool.send, h, htag, hcon], ?_⟩
    rw [assocLookup_update_self, h]
    rfl

/-- Witness for C2: on the concrete registry, sending to "X" with the
wrong type tag fails with TypeMismatch. -/
theorem send_error_precedence_witness :
    ActorPool.send poolEx "X" 1 5 = .error .typeMismatch :=
  (send_error_precedence poolEx "X" 1 5).2.1
    { tag := 0, connected := true, buf := [] } rfl (by decide)

/-- C7: start_actor checks the name before anything else — when it is
taken the call fails with ExistsAlready, the registry is untouched and no
background worker is spawned; when it is free a fresh connected endpoint
is registered under the name, its receiver is appended as one more
polling source, the worker is spawned, and once the worker's loop has
finished the name is unregistered again. -/
theorem startActor_spec (pool : Pool) (polling : List String)
    (name : String) (tag : Nat) :
    ((assocLookup pool name).isSome = true →
        EventLoop.startActor pool polling name tag
          = { result := .error .existsAlready, pool := pool, polling := polling,
              spawned := false }) ∧
    (assocLookup pool name = none →
        EventLoop.startActor pool polling name tag
          = { result := .ok ()
              pool := pool ++ [(name, { tag := tag, connected := true, buf := [] })]
              polling := polling ++ [actorInputSourceName name]
              spawned := true } ∧
        assocLookup (EventLoop.startActor pool polling name tag).pool name
          = some { tag := tag, connected := true, buf := [] } ∧
        actorWorkerFinish (EventLoop.startActor pool polling name tag).pool name = pool ∧
        assocLookup
          (actorWorkerFinish (EventLoop.startActor pool polling name tag).pool name) name
          = none) := by
  constructor
  · intro h
    simp [EventLoop.startActor, ActorPool.register, h]
  · intro h
    have hreg : EventLoop.startActor pool polling name tag
        = { result := .ok ()
            pool := pool ++ [(name, { tag := tag, connected := true, buf := [] })]
            polling := polling ++ [actorInputSourceName name]
            spawned := true } := by
      simp [EventLoop.startActor, ActorPool.register, h]
    have hlook : assocLookup (EventLoop.startActor pool polling name tag).pool name
        = some { tag := tag, connected := true, buf := [] } := by
      rw [hreg]
      exact assocLookup_append pool name _ h
    have hfin : actorWorkerFinish (EventLoop.startActor pool polling name tag).pool name
        = pool := by
      rw [hreg]
      simp only [actorWorkerFinish, ActorPool.unregister,
        assocLookup_append pool name _ h]
      exact assocErase_append pool name _ h
    exact ⟨hreg, hlook, hfin, by rw [hfin]; exact h⟩

/-- Witness for C7: starting the actor "A" on an empty registry registers
it, and after the worker finishes the name is gone again. -/
theorem startActor_spec_witness :
    assocLookup (actorWorkerFinish (EventLoop.startActor [] [] "A" 0).pool "A") "A"
      = none :=
  ((startActor_spec [] [] "A" 0).2 rfl).2.2.2

/-- The consumer loop processes a concatenation by processing the first
part and, unless a fatal error stopped it, continuing with the second. -/
theorem startSync_append {H E R : Type} (step : H → EvResult E R → Except R H)
    (h : H) (l₁ l₂ : List (AggItem E R)) :
    startSync step h (l₁ ++ l₂)
      = (match startSync step h l₁ with
         | .ok h₂ => startSync step h₂ l₂
         | .error r => .error r) := by
  induction l₁ generalizing h with
  | nil => simp [startSync]
  | cons item rest ih =>
    cases item with
    | none => simp only [List.cons_append, startSync]; exact ih h
    | some ev =>
      cases hstep : step h ev with
      | error r => simp [startSync, hstep]
      | ok h₂ => simp only [List.cons_append, startSync, hstep]; exact ih h₂

/-- C3: if some handler invocation reports a fatal error, the consumer
loop stops at that point and start_sync returns exactly that error,
whatever items were still queued behind it; and once the aggregation
channel is drained with no live producer, the loop ends normally and
start_sync returns the handler. -/
theorem startSync_fatal_or_drained {H E R : Type}
    (step : H → EvResult E R → Except R H) (h : H) :
    (∀ (pre rest : List (AggItem E R)) (ev : EvResult E R) (h₂ : H) (r : R),
        startSync step h pre = .ok h₂ → step h₂ ev = .error r →
        startSync step h (pre ++ some ev :: rest) = .error r) ∧
    startSync step h [] = .ok h := by
  refine ⟨?_, rfl⟩
  intro pre rest ev h₂ r hpre hstep
  rw [startSync_append step h pre (some ev :: rest), hpre]
  simp [startSync, hstep]

/-- Witness for C3: a summing handler hit by a fatal error mid-trace makes
the loop return that error, abandoning the remaining items. -/
theorem startSync_fatal_witness :
    startSync sumStep 0
        ([some (.ok { payload := 2, source := "s" })] ++
          some (.error { payload := 7, source := "s" }) :: [none]) = .error 7 :=
  (startSync_fatal_or_drained sumStep 0).1
    [some (.ok { payload := 2, source := "s" })] [none]
    (.error { payload := 7, source := "s" }) 2 7 rfl rfl

/-- C10: a blocking source's worker forwards a None placeholder (nothing
happened) and keeps running, the consumer loop discards that placeholder
without invoking the handler, a normal event is likewise forwarded with
the worker still running, and only a fatal error is forwarded as the
worker's last item. -/
theorem none_placeholder_protocol {H E R : Type}
    (step : H → EvResult E R → Except R H) (h : H)
    (rest : List (AggItem E R)) (e : Event E) (r : Event R) :
    startSync step h (none :: rest) = startSync step h rest ∧
    aggregateBlocking (none :: rest) = none :: aggregateBlocking rest ∧
    aggregateBlocking (some (.ok e) :: rest) = some (.ok e) :: aggregateBlocking rest ∧
    aggregateBlocking (some (.error r) :: rest) = [some (.error r)] :=
  ⟨rfl, rfl, rfl, rfl⟩

/-- Polling a source leaves its identity unchanged. -/
theorem pollOnce_id {E R : Type} (s : PollSrc E R) : (pollOnce s).2.id = s.id := by
  cases hs : s.script <;> simp [pollOnce, hs]

/-- A source kept by a sweep iteration keeps its identity. -/
theorem stepKeep_id {E R : Type} (s s₂ : PollSrc E R) (h : stepKeep s = some s₂) :
    s₂.id = s.id := by
  rcases hpo : pollOnce s with ⟨ev, s₃⟩
  have hid : s₃.id = s.id := by
    have hP := pollOnce_id s
    rw [hpo] at hP
    exact hP
  rw [stepKeep, hpo] at h
  rcases ev with _ | e₂
  · injection h with h
    rw [← h]
    exact hid
  · rcases e₂ with r₂ | e₃
    · injection h
    · injection h with h
      rw [← h]
      exact hid

/-- A source whose next poll is not fatal is kept by the sweep. -/
theorem stepKeep_of_not_fatal {E R : Type} (s₂ : PollSrc E R)
    (h : ∀ r₂ : Event R, pollEv s₂ ≠ some (.error r₂)) :
    ∃ s₃, stepKeep s₂ = some s₃ := by
  rcases hpo : pollOnce s₂ with ⟨ev, s₃⟩
  have hev : pollEv s₂ = ev := by rw [pollEv, hpo]
  rcases ev with _ | e₂
  · exact ⟨s₃, by rw [stepKeep, hpo]⟩
  · rcases e₂ with r₂ | e₃
    · exact absurd hev (h r₂)
    · exact ⟨s₃, by rw [stepKeep, hpo]⟩

/-- A source whose next poll is fatal is dropped by the sweep. -/
theorem stepKeep_of_fatal {E R : Type} (s : PollSrc E R) (r : Event R)
    (tail : List (AggItem E R)) (hs : s.script = some (.error r) :: tail) :
    stepKeep s = none := by
  have hpo : pollOnce s = (some (.error r), { s with script := tail }) := by
    rw [pollOnce, hs]
  rw [stepKeep, hpo]

/-- Closed form of the sweep's for-loop after n of the pending iterations:
the first n sources have been polled (their results forwarded in order)
and re-enqueued behind the untouched remainder unless their poll was
fatal. -/
theorem sweepAux_eq {E R : Type} :
    ∀ (n : Nat) (ss : List (PollSrc E R)), n ≤ ss.length →
      sweepAux n ss = (ss.drop n ++ (ss.take n).filterMap stepKeep,
                       (ss.take n).map pollEv) := by
  intro n
  induction n with
  | zero => intro ss _; simp [sweepAux]
  | succ n ih =>
    intro ss h
    cases ss with
    | nil => simp at h
    | cons s rest =>
      have hlen : n ≤ rest.length := Nat.lt_succ_iff.mp h
      rcases hpo : pollOnce s with ⟨ev, s₂⟩
      have hev : pollEv s = ev := by rw [pollEv, hpo]
      rcases ev with _ | e₂
      · have hkeep : stepKeep s = some s₂ := by rw [stepKeep, hpo]
        have hstep : sweepAux (n + 1) (s :: rest)
            = ((sweepAux n (rest ++ [s₂])).1, none :: (sweepAux n (rest ++ [s₂])).2) := by
          simp [sweepAux, hpo]
        rw [hstep, ih (rest ++ [s₂]) (le_trans hlen (by simp))]
        simp [List.take_append_of_le_length hlen, List.drop_append_of_le_length hlen,
          List.filterMap_cons, hkeep, hev]
      · rcases e₂ with r₂ | e₃
        · have hdrop : stepKeep s = none := by rw [stepKeep, hpo]
          have hstep : sweepAux (n + 1) (s :: rest)
              = ((sweepAux n rest).1, some (.error r₂) :: (sweepAux n rest).2) := by
            simp [sweepAux, hpo]
          rw [hstep, ih rest hlen]
          simp [List.filterMap_cons, hdrop, hev]
        · have hkeep : stepKeep s = some s₂ := by rw [stepKeep, hpo]
          have hstep : sweepAux (n + 1) (s :: rest)
              = ((sweepAux n (rest ++ [s₂])).1,
                 some (.ok e₃) :: (sweepAux n (rest ++ [s₂])).2) := by
            simp [sweepAux, hpo]
          rw [hstep, ih (rest ++ [s₂]) (le_trans hlen (by simp))]
          simp [List.take_append_of_le_length hlen, List.drop_append_of_le_length hlen,
            List.filterMap_cons, hkeep, hev]

/-- One sweep polls every source currently in the deque exactly once, in
order, and keeps exactly the sources whose poll was not fatal. -/
theorem sweep_eq {E R : Type} (ss : List (PollSrc E R)) :
    sweep ss = (ss.filterMap stepKeep, ss.map pollEv) := by
  have h := sweepAux_eq ss.length ss (le_refl _)
  simpa [sweep, List.take_length, List.drop_length] using h

/-- Any identity present after a sweep was present before it. -/
theorem sweepStep_id_mem {E R : Type} (ss : List (PollSrc E R)) (x : Nat)
    (h : x ∈ (sweepStep ss).map PollSrc.id) : x ∈ ss.map PollSrc.id := by
  have hss : sweepStep ss = ss.filterMap stepKeep := by
    rw [sweepStep, sweep_eq]
  rw [hss] at h
  rw [List.mem_map] at h
  obtain ⟨y, hy, hyx⟩ := h
  rw [List.mem_filterMap] at hy
  obtain ⟨s₂, hs₂, hk⟩ := hy
  rw [List.mem_map]
  exact ⟨s₂, hs₂, by rw [← stepKeep_id s₂ y hk]; exact hyx⟩

/-- C8: a polling source whose poll reports a fatal error has that error
forwarded to the aggregation channel like every other poll result, but is
removed from the rotation permanently — its identity is absent from the
deque of every later sweep — while every source whose poll was not fatal
is re-enqueued and polled again on the next sweep. -/
theorem polling_fatal_removed {E R : Type}
    (ss : List (PollSrc E R)) (s : PollSrc E R) (r : Event R)
    (hnd : (ss.map PollSrc.id).Nodup) (hmem : s ∈ ss)
    (hhead : s.script.head? = some (some (.error r))) :
    (sweep ss).2 = ss.map pollEv ∧
    some (.error r) ∈ (sweep ss).2 ∧
    (∀ k : Nat, s.id ∉ (sweepStep^[k] (sweepStep ss)).map PollSrc.id) ∧
    (∀ s₂, s₂ ∈ ss → (∀ r₂ : Event R, pollEv s₂ ≠ some (.error r₂)) →
        s₂.id ∈ (sweepStep ss).map PollSrc.id) := by
  obtain ⟨tail, hsc⟩ : ∃ tail, s.script = some (.error r) :: tail := by
    cases hs : s.script with
    | nil => rw [hs] at hhead; cases hhead
    | cons a tl =>
      rw [hs] at hhead
      injection hhead with hhead
      exact ⟨tl, by rw [hhead]⟩
  have hEv : pollEv s = some (.error r) := by simp [pollEv, pollOnce, hsc]
  have hSK : stepKeep s = none := stepKeep_of_fatal s r tail hsc
  have hsnd : (sweep ss).2 = ss.map pollEv := by rw [sweep_eq]
  have hbase : s.id ∉ (sweepStep ss).map PollSrc.id := by
    intro hin
    have hss : sweepStep ss = ss.filterMap stepKeep := by
      rw [sweepStep, sweep_eq]
    rw [hss, List.mem_map] at hin
    obtain ⟨y, hy, hyx⟩ := hin
    rw [List.mem_filterMap] at hy
    obtain ⟨s₂, hs₂, hk⟩ := hy
    have hid : s₂.id = s.id := by rw [← stepKeep_id s₂ y hk]; exact hyx
    have : s₂ = s := List.inj_on_of_nodup_map hnd hs₂ hmem hid
    rw [this] at hk
    rw [hSK] at hk
    cases hk
  refine ⟨hsnd, ?_, ?_, ?_⟩
  · rw [hsnd, ← hEv]
    exact List.mem_map_of_mem pollEv hmem
  · intro k
    induction k with
    | zero => simpa using hbase
    | succ k ihk =>
      rw [Function.iterate_succ_apply']
      intro hin
      exact ihk (sweepStep_id_mem _ _ hin)
  · intro s₂ hs₂ hnf
    obtain ⟨s₃, hk⟩ := stepKeep_of_not_fatal s₂ hnf
    have hss : sweepStep ss = ss.filterMap stepKeep := by
      rw [sweepStep, sweep_eq]
    rw [hss, List.mem_map]
    exact ⟨s₃, List.mem_filterMap.mpr ⟨s₂, hs₂, hk⟩, stepKeep_id s₂ s₃ hk⟩

/-- Witness for C8 on the concrete deque: source 0's fatal error shows up
in the forwarded results of the sweep. -/
theorem polling_fatal_removed_witness :
    some (.error { payload := 9, source := "a" }) ∈ (sweep ssEx).2 :=
  (polling_fatal_removed ssEx
      { id := 0, script := [some (.error { payload := 9, source := "a" })] }
      { payload := 9, source := "a" }
      (by simp [ssEx]) (by simp [ssEx]) rfl).2.1

end Actox
